import Mathlib

/-!
Verification of the voice-driven conversational interface (the App component
with VAD, bounded recording, service round-trip and TTS playback).

The embedding follows the richest state-machine variant of the source, the
App component that owns the rolling speech detector, the media recorder with
a five second ceiling, the backend round-trip and the hard stop of playback.
Sample amplitudes and RMS values are modelled as rationals; the square root
used by the analyzer is an abstract parameter, since only its application

structure matters for the stated properties.
-/

set_option maxRecDepth 4096
set_option linter.unusedVariables false

/-- Status values of the React component, as in the source literal union. -/
inductive JStatus where
  | waiting
  | listening
  | speaking
  | processing
deriving DecidableEq, Repr

/-- Message roles, as in the Message interface of the source. -/
inductive Role where
  | user
  | assistant
deriving DecidableEq, Repr

/-- Files metadata returned by the service, as in the Message interface. -/
structure FilesMeta where
  original_audio : String
  transcription : String
  tts_audio : String
deriving DecidableEq, Repr

/-- Conversation log entry, mirroring the Message interface of the source. -/
structure Message where
  role : Role
  content : String
  audio : Option String := none
  transcription : Option String := none
  files : Option FilesMeta := none
deriving DecidableEq, Repr

/-- Detector emissions of the speech detector described by the spec: the
branch of the audio callback that starts a recording as a barge-in emits
interrupt, the debounced branch emits speechStart. -/
inductive DetEvent where
  | speechStart
  | interrupt
deriving DecidableEq, Repr

/-- Constant SPEECH_THRESHOLD of the source. -/
def SPEECH_THRESHOLD : ℚ := mkRat 2 100

/-- Constant MIN_SPEECH_BUFFERS of the source. -/
def MIN_SPEECH_BUFFERS : Nat := 6

/-- Constant INTERRUPT_THRESHOLD of the source. -/
def INTERRUPT_THRESHOLD : ℚ := mkRat 3 100

/-- Value of one hexadecimal digit character, none for any other character,
as recognised by the JavaScript parseInt with radix 16. -/
def hexDigitVal (c : Char) : Option Nat :=
  if '0' ≤ c ∧ c ≤ '9' then some (c.toNat - '0'.toNat)
  else if 'a' ≤ c ∧ c ≤ 'f' then some (c.toNat - 'a'.toNat + 10)
  else if 'A' ≤ c ∧ c ≤ 'F' then some (c.toNat - 'A'.toNat + 10)
  else none

/-- Longest run of hexadecimal digits at the head of the character list,
accumulated left to right; none when no digit was consumed, which the
JavaScript parseInt reports as NaN. -/
def parseHexRun : List Char → Option Nat → Option Nat
  | [], acc => acc
  | c :: rest, acc =>
    match hexDigitVal c with
    | some v => parseHexRun rest (some (16 * acc.getD 0 + v))
    | none => acc

/-- Whitespace characters skipped by the JavaScript parseInt. -/
def jsWhitespace (c : Char) : Bool :=
  c = ' ' ∨ c = '\t' ∨ c = '\n' ∨ c = '\r'

/-- JavaScript parseInt with radix 16 on a short character list: skip
whitespace, read an optional sign, strip an optional 0x or 0X marker, then
parse the longest hexadecimal digit run; none models NaN. -/
def jsParseIntHex (l : List Char) : Option Int :=
  let l1 := l.dropWhile jsWhitespace
  let signed : Int × List Char :=
    match l1 with
    | '-' :: r => (-1, r)
    | '+' :: r => (1, r)
    | _ => (1, l1)
  let l2 : List Char :=
    match signed.2 with
    | '0' :: 'x' :: r => r
    | '0' :: 'X' :: r => r
    | _ => signed.2
  match parseHexRun l2 none with
  | none => none
  | some n => some (signed.1 * n)

/-- Coercion of a parsed value into a Uint8Array cell: NaN becomes 0 and any
other value is reduced modulo 256. -/
def jsToUint8 : Option Int → Nat
  | none => 0
  | some i => (i % 256).toNat

/-- Line terminator characters that the dot of a JavaScript regular
expression does not match. -/
def isLineTerminator (c : Char) : Bool :=
  c = '\n' ∨ c = '\r' ∨ c.toNat = 0x2028 ∨ c.toNat = 0x2029

/-- Global scan of the regular expression matching one or two arbitrary
non-terminator characters, as used by the source to split the hex payload:
at each position match greedily two characters, else one, else advance. -/
def jsDotChunks : List Char → List (List Char)
  | [] => []
  | c :: rest =>
    if isLineTerminator c then jsDotChunks rest
    else
      match rest with
      | [] => [[c]]
      | d :: rest2 =>
        if isLineTerminator d then [c] :: jsDotChunks rest2
        else [c, d] :: jsDotChunks rest2

/-- Hex decoding step of playAudioResponse: split the string with the global
match, fail when the match comes back null (the non-null assertion of the
source would throw there), else parse each chunk with parseInt and coerce to
a byte. -/
def hexDecode (s : String) : Option (List Nat) :=
  match jsDotChunks s.data with
  | [] => none
  | chunks => some (chunks.map (fun ch => jsToUint8 (jsParseIntHex ch)))

/-- Mutable state of the App component: the status state hook, the recording
lock ref, the rolling speech buffer counter, whether the script processor
callback is installed, the media recorder, its chunk buffer, the pending
fetch, the audio element playback, the stopped flag, the conversation log,
plus two observation fields: the last blob handed to processAudio and the
number of invocations of the hex decoder. -/
structure AppState where
  status : JStatus
  isRecording : Bool
  speechBufferCount : Nat
  vadActive : Bool
  recorderActive : Bool
  chunks : List (List Nat)
  inFlight : Bool
  playing : Bool
  ttsStopped : Bool
  messages : List Message
  lastSent : Option (List Nat)
  decodeCalls : Nat
deriving DecidableEq, Repr

/-- Events delivered to the component: an audio frame with its RMS value, a
recorder data chunk, the five second ceiling timeout, resolution of the
service call with or without success, and the end or error of playback. -/
inductive Ev where
  | frame (rms : ℚ)
  | chunk (data : List Nat)
  | ceiling
  | serviceOk (t : Option String) (r : String) (a : Option String) (f : Option FilesMeta)
  | serviceErr
  | playEnded
deriving DecidableEq

/-- Source function stopListening: disconnect the processor and release the
capture resources, so no further frames are observed. -/
def stopListening (s : AppState) : AppState :=
  { s with vadActive := false }

/-- Source function startListening on its success path: set status to
waiting, reopen capture, reset the speech buffer counter and install the
frame callback. -/
def startListening (s : AppState) : AppState :=
  { s with status := .waiting, vadActive := true, speechBufferCount := 0 }

/-- Source function startRecording: force stop the audio element, clean the
previous VAD, set status listening, take the recording lock, clear the chunk
buffer and start a media recorder; the getUserMedia continuation is modelled
as completing here. -/
def startRecording (s : AppState) : AppState :=
  { stopListening { s with playing := false } with
      status := .listening,
      isRecording := true,
      chunks := [],
      recorderActive := true }

/-- Body of the onaudioprocess callback of the source, over the RMS of the
frame, paired with the detector emission of the taken branch: the interrupt
branch stops playback and starts recording at once, the speech branch counts
buffers and fires after MIN_SPEECH_BUFFERS when the lock is free, any quiet
frame resets the counter. -/
def onAudioProcess (rms : ℚ) (s : AppState) : AppState × Option DetEvent :=
  if s.vadActive = false then (s, none)
  else if s.status = .speaking ∧ INTERRUPT_THRESHOLD < rms then
    (startRecording (stopListening { s with playing := false, status := .listening }),
      some .interrupt)
  else if SPEECH_THRESHOLD < rms then
    let c := s.speechBufferCount + 1
    if MIN_SPEECH_BUFFERS ≤ c ∧ s.isRecording = false then
      ({ startRecording (stopListening { s with speechBufferCount := c, isRecording := true })
          with speechBufferCount := 0 }, some .speechStart)
    else if s.status ≠ .listening ∧ s.status ≠ .processing then
      ({ s with speechBufferCount := c, status := .listening }, none)
    else ({ s with speechBufferCount := c }, none)
  else ({ s with speechBufferCount := 0 }, none)

/-- The onstop handler of the media recorder up to its first await: set
status processing, build the blob out of the collected chunks and dispatch
the fetch of processAudio. -/
def onRecorderStop (s : AppState) : AppState :=
  { s with recorderActive := false,
           status := .processing,
           lastSent := some s.chunks.flatten,
           inFlight := true }

/-- The five second setTimeout of startRecording: stop the recorder when it
is still recording, else do nothing. -/
def ceilingFire (s : AppState) : AppState :=
  if s.recorderActive then onRecorderStop s else s

/-- The ondataavailable handler: append the data chunk to the buffer. -/
def onDataAvailable (data : List Nat) (s : AppState) : AppState :=
  if s.recorderActive then { s with chunks := s.chunks ++ [data] } else s

/-- Source function playAudioResponse: set status speaking, clear the
stopped flag, stop the previous playback, then decode the hex payload and
start the element; a thrown decode (null match) is caught and falls back to
waiting plus startListening. -/
def playAudioResponse (a : String) (s : AppState) : AppState :=
  let s1 := { s with status := .speaking, ttsStopped := false, playing := false,
                     decodeCalls := s.decodeCalls + 1 }
  match hexDecode a with
  | some _ => { s1 with playing := true }
  | none => startListening { s1 with status := .waiting }

/-- User message appended by processAudio, with the JavaScript or-else
defaulting of a falsy transcription. -/
def userMessage (t : Option String) (f : Option FilesMeta) : Message :=
  { role := .user,
    content := match t with
      | none => "Transcription not available"
      | some str => if str = "" then "Transcription not available" else str,
    transcription := t,
    files := f }

/-- Assistant message appended by processAudio on success. -/
def assistantMessage (r : String) (a : Option String) : Message :=
  { role := .assistant, content := r, audio := a }

/-- Fallback assistant message appended by the catch of processAudio. -/
def fallbackMessage : Message :=
  { role := .assistant, content := "Sorry, there was an error processing your message." }

/-- Success path of processAudio: append the user and assistant messages,
then play the audio when the field is truthy, else resume listening. -/
def processAudioSuccess (t : Option String) (r : String) (a : Option String)
    (f : Option FilesMeta) (s : AppState) : AppState :=
  let s1 := { s with messages := s.messages ++ [userMessage t f, assistantMessage r a] }
  match a with
  | some str => if str = "" then startListening s1 else playAudioResponse str s1
  | none => startListening s1

/-- Failure path of processAudio: append the fallback message and resume
listening. -/
def processAudioFailure (s : AppState) : AppState :=
  startListening { s with messages := s.messages ++ [fallbackMessage] }

/-- Continuation of the onstop handler after processAudio resolves: release
the recording lock, set status waiting and start listening again. -/
def onStopContinue (s : AppState) : AppState :=
  startListening { s with isRecording := false, status := .waiting }

/-- One step of the component on an event, together with the detector
emission of a frame event. -/
def stepE (e : Ev) (s : AppState) : AppState × Option DetEvent :=
  match e with
  | .frame rms => onAudioProcess rms s
  | .chunk data => (onDataAvailable data s, none)
  | .ceiling => (ceilingFire s, none)
  | .serviceOk t r a f =>
    (if s.inFlight then
      onStopContinue (processAudioSuccess t r a f { s with inFlight := false })
    else s, none)
  | .serviceErr =>
    (if s.inFlight then
      onStopContinue (processAudioFailure { s with inFlight := false })
    else s, none)
  | .playEnded =>
    (if s.playing then startListening { s with playing := false, status := .waiting }
     else s, none)

/-- Resulting state of a step, the emission dropped. -/
def step (e : Ev) (s : AppState) : AppState :=
  (stepE e s).1

/-- Run a list of frame events, collecting the detector emissions. -/
def runFrames : List ℚ → AppState → AppState × List DetEvent
  | [], s => (s, [])
  | rms :: rest, s =>
    let p := onAudioProcess rms s
    let q := runFrames rest p.1
    (q.1, p.2.toList ++ q.2)

/-- State of the component right after mount: status waiting and the frame
callback installed by the initial startListening. -/
def initState : AppState :=
  { status := .waiting, isRecording := false, speechBufferCount := 0,
    vadActive := true, recorderActive := false, chunks := [], inFlight := false,
    playing := false, ttsStopped := false, messages := [], lastSent := none,
    decodeCalls := 0 }

/-- States reachable from the mounted component by any event sequence. -/
inductive Reachable : AppState → Prop where
  | init : Reachable initState
  | next (e : Ev) {s : AppState} : Reachable s → Reachable (step e s)

/-- Steps of the audio element teardown inside hardStopAudio, in source
order: clear the three handlers, pause, reset the position, clear the
source, reload. -/
inductive ElStep where
  | clearOnended
  | clearOnerror
  | clearOnpause
  | pauseStep
  | resetTime
  | clearSrc
  | loadStep
deriving DecidableEq, Repr

/-- Observable state of the HTML audio element. -/
structure AudioEl where
  onended : Bool
  onerror : Bool
  onpause : Bool
  paused : Bool
  currentTime : ℚ
  src : String
deriving DecidableEq, Repr

/-- Effect of one teardown step on the element; load reinitialises the
element and changes none of the modelled fields. -/
def applyElStep : ElStep → AudioEl → AudioEl
  | .clearOnended, el => { el with onended := false }
  | .clearOnerror, el => { el with onerror := false }
  | .clearOnpause, el => { el with onpause := false }
  | .pauseStep, el => { el with paused := true }
  | .resetTime, el => { el with currentTime := 0 }
  | .clearSrc, el => { el with src := "" }
  | .loadStep, el => el

/-- Failure model for hardStopAudio: whether the intercept hook throws and
which element steps throw. -/
structure FailSpec where
  interceptFails : Bool
  elFails : ElStep → Bool

/-- Execution of one try block over a list of steps: a throwing step has no
effect and aborts the rest of the block; the surrounding catch swallows the
error. -/
def runTryBlock (fails : ElStep → Bool) : List ElStep → AudioEl → AudioEl
  | [], el => el
  | st :: rest, el =>
    if fails st then el else runTryBlock fails rest (applyElStep st el)

/-- The element steps of hardStopAudio in source order, all inside one try
block. -/
def elTeardownSteps : List ElStep :=
  [.clearOnended, .clearOnerror, .clearOnpause, .pauseStep, .resetTime, .clearSrc, .loadStep]

/-- Playback resources touched by hardStopAudio: the registered intercept
controller, the audio element reference and the stopped flag. -/
structure PlaybackState where
  controller : Option Unit
  player : Option AudioEl
  ttsStopped : Bool

/-- Source function hardStopAudio: invoke the intercept hook inside its own
try block and null the controller on success, then tear the audio element
down inside a second try block, then set the stopped flag; each catch only
logs. -/
def hardStopAudio (f : FailSpec) (s : PlaybackState) : PlaybackState :=
  let controller : Option Unit :=
    match s.controller with
    | some c => if f.interceptFails then some c else none
    | none => none
  let player : Option AudioEl :=
    match s.player with
    | some el => some (runTryBlock f.elFails elTeardownSteps el)
    | none => none
  { controller := controller, player := player, ttsStopped := true }

/-- Energy reading of one frame: the overall RMS and the eight band values
for the visualisation. -/
structure EnergyReading where
  rms : ℚ
  bands : List ℚ
deriving DecidableEq, Repr

/-- Source reduce accumulating the sum of squared samples from 0. -/
def sumSquares (l : List ℚ) : ℚ :=
  l.foldl (fun acc sample => acc + sample * sample) 0

/-- Energy analysis of the onaudioprocess callback: overall RMS over the
whole frame, then eight bands of floor (n / 8) samples, the eighth band
running to the end of the frame, each band RMS scaled by 10 and capped at 1.
The square root is an abstract parameter sq. -/
def analyze (sq : ℚ → ℚ) (frame : List ℚ) : EnergyReading :=
  let n := frame.length
  let bandSize := n / 8
  { rms := sq (sumSquares frame / (n : ℚ)),
    bands := (List.range 8).map (fun i =>
      let start := i * bandSize
      let e := if i = 7 then n else (i + 1) * bandSize
      let band := (frame.take e).drop start
      min 1 (sq (sumSquares band / (band.length : ℚ)) * 10)) }

/-- Mean of the squared samples, following the wording of the spec. -/
def meanSquare (l : List ℚ) : ℚ :=
  (l.map (fun x => x * x)).sum / (l.length : ℚ)

/-- Sub-range of the frame assigned to band i by the spec: eight contiguous
equal-length sub-ranges of width floor (n / 8), the last absorbing the
remainder. -/
def specSubrange (frame : List ℚ) (i : Nat) : List ℚ :=
  let w := frame.length / 8
  (frame.drop (i * w)).take (if i = 7 then frame.length - 7 * w else w)

/-- Band value by the spec: RMS of the sub-range, scaled by the
visualisation gain 10 and clamped to the unit interval. -/
def specBandValue (sq : ℚ → ℚ) (frame : List ℚ) (i : Nat) : ℚ :=
  min 1 (max 0 (sq (meanSquare (specSubrange frame i)) * 10))

/-- A frame loud enough to trigger both thresholds, RMS 0.04. -/
def loudFrame : Ev := .frame (mkRat 4 100)

/-- State after six consecutive loud frames from mount: the sixth frame
fires the speech start, so the recorder is active. -/
def recState : AppState :=
  step loudFrame (step loudFrame (step loudFrame (step loudFrame
    (step loudFrame (step loudFrame initState)))))

/-- Recording state holding one data chunk of two bytes. -/
def recChunkState : AppState :=
  step (.chunk [82, 73]) recState

/-- Processing state: the ceiling timeout fired on the recording state, the
utterance was dispatched and the fetch is pending. -/
def procState : AppState :=
  step .ceiling recChunkState

/-- Spurious counter state in Speaking used for the claim 1 counterexample:
three loud buffers have been counted while the bot is speaking. -/
def spkState : AppState :=
  { initState with status := .speaking, speechBufferCount := 3 }

/-- Listening state used as the start of witness frame streams. -/
def listenState : AppState :=
  { initState with status := .listening }

/-- Failure model where only the pause call throws. -/
def stuckPause : FailSpec :=
  { interceptFails := false, elFails := fun st => st == ElStep.pauseStep }

/-- A playing element before the hard stop: handlers attached, not paused,
position 7, a source set. -/
def hungEl : AudioEl :=
  { onended := true, onerror := true, onpause := true, paused := false,
    currentTime := 7, src := "blob:tts" }

/-- Invariant of the reachable states backing claim 6: the recording lock is
held whenever the state is processing, the recorder is active or a fetch is
pending; a pending fetch excludes an active recorder; and no settled state
is speaking (the onstop continuation always lands on waiting). -/
def ControllerInv (s : AppState) : Prop :=
  ((s.status = .processing ∨ s.recorderActive = true ∨ s.inFlight = true) →
      s.isRecording = true)
    ∧ (s.inFlight = true → s.recorderActive = false)
    ∧ s.status ≠ .speaking

example : hexDecode "abc" = some [171, 12] := by decide

example : hexDecode "" = none := by decide

example : hexDecode "52494646" = some [82, 73, 70, 70] := by decide

example : hexDecode "zz" = some [0] := by decide

example : hexDecode "1z" = some [1] := by decide

example : recState.recorderActive = true ∧ recState.isRecording = true
    ∧ recState.status = .listening ∧ recState.vadActive = false := by decide

example : procState.status = .processing ∧ procState.inFlight = true
    ∧ procState.lastSent = some [82, 73] := by decide

example : (step (.serviceOk (some "hello") "hi there" (some "abc") none) procState).messages
    = [userMessage (some "hello") none, assistantMessage "hi there" (some "abc")] := by decide

example : (step (.serviceOk (some "hello") "hi there" (some "abc") none) procState).playing
    = true := by decide

example : (step .serviceErr procState).messages = [fallbackMessage] := by decide

/-- The two thresholds are strictly ordered. -/
theorem speech_lt_interrupt : SPEECH_THRESHOLD < INTERRUPT_THRESHOLD := by decide

/-- A frame observed with the callback uninstalled changes nothing and
emits nothing. -/
theorem runFrames_vad_off (ys : List ℚ) (s : AppState) (h : s.vadActive = false) :
    runFrames ys s = (s, []) := by
  induction ys with
  | nil => rfl
  | cons y ys ih => simp [runFrames, onAudioProcess, h, ih]

/-- One quiet frame resets the counter and emits nothing. -/
theorem onAudioProcess_quiet (s : AppState) (y : ℚ) (hvad : s.vadActive = true)
    (hy : y < SPEECH_THRESHOLD) :
    onAudioProcess y s = ({ s with speechBufferCount := 0 }, none) := by
  have h1 : ¬ INTERRUPT_THRESHOLD < y :=
    not_lt_of_lt (lt_trans hy speech_lt_interrupt)
  have h2 : ¬ SPEECH_THRESHOLD < y := not_lt_of_lt hy
  simp [onAudioProcess, hvad, h1, h2]

/-- A nonempty run of quiet frames leaves the state unchanged except for a
zero counter, and emits nothing. -/
theorem runFrames_quiet (ys : List ℚ) (s : AppState) (hvad : s.vadActive = true)
    (hq : ∀ y ∈ ys, y < SPEECH_THRESHOLD) (hne : ys ≠ []) :
    runFrames ys s = ({ s with speechBufferCount := 0 }, []) := by
  induction ys generalizing s with
  | nil => exact absurd rfl hne
  | cons y ys ih =>
    have hy : y < SPEECH_THRESHOLD := hq y (by simp)
    cases ys with
    | nil => simp [runFrames, onAudioProcess_quiet s y hvad hy]
    | cons z zs =>
      have hq2 : ∀ w ∈ z :: zs, w < SPEECH_THRESHOLD := fun w hw => hq w (by simp [hw])
      have := ih (s := { s with speechBufferCount := 0 }) hvad hq2 (by simp)
      simp [runFrames, onAudioProcess_quiet s y hvad hy] at this ⊢
      simp [this]

/-- C4: for every sequence of observed RMS values strictly below
SPEECH_THRESHOLD, the debounce counter equals 0 after each observation and
no speechStart or interrupt is emitted at any point; stated over every
nonempty prefix, written with take, of the observed sequence. -/
theorem claim4_quiet_sequence (s0 : AppState) (ys : List ℚ) (k : Nat)
    (hvad : s0.vadActive = true)
    (hq : ∀ y ∈ ys, y < SPEECH_THRESHOLD)
    (hk : 1 ≤ k) (hky : k ≤ ys.length) :
    (runFrames (ys.take k) s0).1.speechBufferCount = 0
      ∧ (runFrames (ys.take k) s0).2 = [] := by
  have hsub : ∀ y ∈ ys.take k, y < SPEECH_THRESHOLD :=
    fun y hy => hq y (List.take_subset k ys hy)
  have hne : ys.take k ≠ [] := by
    cases ys with
    | nil => simp at hky; omega
    | cons z zs =>
      cases k with
      | zero => omega
      | succ m => simp
  have := runFrames_quiet (ys.take k) s0 hvad hsub hne
  simp [this]

/-- Witness for claim4_quiet_sequence at a concrete quiet sequence. -/
theorem claim4_quiet_sequence_witness :
    (initState.vadActive = true
        ∧ (∀ y ∈ [mkRat 1 100, 0, mkRat 19 1000], y < SPEECH_THRESHOLD))
      ∧ ((runFrames ([mkRat 1 100, 0, mkRat 19 1000].take 3) initState).1.speechBufferCount = 0
          ∧ (runFrames ([mkRat 1 100, 0, mkRat 19 1000].take 3) initState).2 = []) :=
  ⟨⟨by decide, by decide⟩,
    claim4_quiet_sequence initState [mkRat 1 100, 0, mkRat 19 1000] 3
      (by decide) (by decide) (by decide) (by decide)⟩

/-- C1 counterexample: on a frame of RMS 0.04 in Speaking, the interrupt is
emitted immediately, but the run-length counter is not reset to 0 as the
claim states; the early return of the interrupt branch leaves it at 3. -/
theorem claim1_counterexample :
    (stepE (.frame (mkRat 4 100)) spkState).2 = some DetEvent.interrupt
      ∧ ¬ ((stepE (.frame (mkRat 4 100)) spkState).1.speechBufferCount = 0) := by
  decide

/-- C1 amended: a frame above INTERRUPT_THRESHOLD observed in Speaking emits
interrupt immediately on that single frame, with no counter precondition,
stops playback and starts recording, but leaves the run-length counter
unchanged rather than resetting it. -/
theorem claim1_interrupt_immediate (s : AppState) (rms : ℚ)
    (hvad : s.vadActive = true) (hst : s.status = .speaking)
    (hr : INTERRUPT_THRESHOLD < rms) :
    (stepE (.frame rms) s).2 = some DetEvent.interrupt
      ∧ (stepE (.frame rms) s).1.speechBufferCount = s.speechBufferCount
      ∧ (stepE (.frame rms) s).1.recorderActive = true
      ∧ (stepE (.frame rms) s).1.playing = false := by
  simp [stepE, onAudioProcess, hvad, hst, hr, startRecording, stopListening]

/-- Witness for claim1_interrupt_immediate at the concrete Speaking state of
the counterexample. -/
theorem claim1_interrupt_immediate_witness :
    (spkState.vadActive = true ∧ spkState.status = .speaking
        ∧ INTERRUPT_THRESHOLD < mkRat 4 100)
      ∧ ((stepE (.frame (mkRat 4 100)) spkState).2 = some DetEvent.interrupt
          ∧ (stepE (.frame (mkRat 4 100)) spkState).1.speechBufferCount
              = spkState.speechBufferCount
          ∧ (stepE (.frame (mkRat 4 100)) spkState).1.recorderActive = true
          ∧ (stepE (.frame (mkRat 4 100)) spkState).1.playing = false) :=
  ⟨⟨by decide, by decide, by decide⟩,
    claim1_interrupt_immediate spkState (mkRat 4 100) (by decide) (by decide) (by decide)⟩

/-- One loud frame in Listening below the debounce minimum only increments
the counter. -/
theorem onAudioProcess_loud_below_min (s : AppState) (x : ℚ)
    (hvad : s.vadActive = true) (hrec : s.isRecording = false)
    (hst : s.status = .listening) (hx : SPEECH_THRESHOLD < x)
    (hcnt : s.speechBufferCount + 1 < MIN_SPEECH_BUFFERS) :
    onAudioProcess x s = ({ s with speechBufferCount := s.speechBufferCount + 1 }, none) := by
  have h1 : ¬ (s.status = .speaking ∧ INTERRUPT_THRESHOLD < x) := by
    simp [hst]
  have h2 : ¬ MIN_SPEECH_BUFFERS ≤ s.speechBufferCount + 1 := by omega
  simp [onAudioProcess, hvad, hst, hx, h1, h2]

/-- A run of loud frames in Listening that stays below the debounce minimum
accumulates the counter and emits nothing. -/
theorem runFrames_loud_below_min (xs : List ℚ) (s : AppState)
    (hvad : s.vadActive = true) (hrec : s.isRecording = false)
    (hst : s.status = .listening)
    (hx : ∀ x ∈ xs, SPEECH_THRESHOLD < x)
    (hcnt : s.speechBufferCount + xs.length < MIN_SPEECH_BUFFERS) :
    runFrames xs s = ({ s with speechBufferCount := s.speechBufferCount + xs.length }, []) := by
  induction xs generalizing s with
  | nil => simp [runFrames]
  | cons x xs ih =>
    have hx1 : SPEECH_THRESHOLD < x := hx x (by simp)
    have hstep := onAudioProcess_loud_below_min s x hvad hrec hst hx1
      (by simp at hcnt; omega)
    have htail := ih (s := { s with speechBufferCount := s.speechBufferCount + 1 })
      hvad hrec hst (fun w hw => hx w (by simp [hw])) (by simp at hcnt ⊢; omega)
    simp [runFrames, hstep, htail]
    omega

/-- The sixth loud frame in Listening with the lock free fires the speech
start: the recording begins, the counter resets and the callback is removed. -/
theorem onAudioProcess_fires (s : AppState) (x : ℚ)
    (hvad : s.vadActive = true) (hrec : s.isRecording = false)
    (hst : s.status = .listening) (hx : SPEECH_THRESHOLD < x)
    (hcnt : s.speechBufferCount = MIN_SPEECH_BUFFERS - 1) :
    onAudioProcess x s
      = ({ startRecording (stopListening
            { s with speechBufferCount := s.speechBufferCount + 1, isRecording := true })
            with speechBufferCount := 0 }, some .speechStart) := by
  have h1 : ¬ (s.status = .speaking ∧ INTERRUPT_THRESHOLD < x) := by
    simp [hst]
  have h2 : MIN_SPEECH_BUFFERS ≤ s.speechBufferCount + 1 := by
    simp [MIN_SPEECH_BUFFERS] at hcnt ⊢; omega
  simp [onAudioProcess, hvad, hx, h1, h2, hrec]

/-- Frames run over an appended list compose, emissions concatenating. -/
theorem runFrames_append (xs ys : List ℚ) (s : AppState) :
    runFrames (xs ++ ys) s
      = ((runFrames ys (runFrames xs s).1).1,
         (runFrames xs s).2 ++ (runFrames ys (runFrames xs s).1).2) := by
  induction xs generalizing s with
  | nil => simp [runFrames]
  | cons x xs ih => simp [runFrames, ih]

/-- C3: with the debounce minimum 6 and no recording active, a stream of 6
loud frames followed by quiet ones emits exactly one speechStart, on the
sixth frame and not before, and the counter is reset when it fires. -/
theorem claim3_speech_start_sixth (s0 : AppState) (xs ys : List ℚ)
    (hvad : s0.vadActive = true) (hrec : s0.isRecording = false)
    (hst : s0.status = .listening) (hcnt : s0.speechBufferCount = 0)
    (hlen : xs.length = MIN_SPEECH_BUFFERS)
    (hx : ∀ x ∈ xs, SPEECH_THRESHOLD < x)
    (hy : ∀ y ∈ ys, y < SPEECH_THRESHOLD) :
    (runFrames (xs ++ ys) s0).2 = [DetEvent.speechStart]
      ∧ (runFrames (xs.take 5) s0).2 = []
      ∧ (runFrames (xs ++ ys) s0).1.speechBufferCount = 0
      ∧ (runFrames (xs ++ ys) s0).1.recorderActive = true := by
  match xs, hlen with
  | [a, b, c, d, e, f], _ =>
    have ha : SPEECH_THRESHOLD < a := hx a (by simp)
    have hb : SPEECH_THRESHOLD < b := hx b (by simp)
    have hc : SPEECH_THRESHOLD < c := hx c (by simp)
    have hd : SPEECH_THRESHOLD < d := hx d (by simp)
    have he : SPEECH_THRESHOLD < e := hx e (by simp)
    have hf : SPEECH_THRESHOLD < f := hx f (by simp)
    refine ⟨?_, ?_, ?_, ?_⟩ <;>
      simp [runFrames, onAudioProcess, startRecording, stopListening, hvad, hrec, hst,
        hcnt, ha, hb, hc, hd, he, hf, MIN_SPEECH_BUFFERS, runFrames_vad_off]

/-- Witness for claim3_speech_start_sixth on six frames of RMS 0.05 and one
quiet frame. -/
theorem claim3_speech_start_sixth_witness :
    (listenState.vadActive = true ∧ listenState.isRecording = false
        ∧ listenState.status = .listening ∧ listenState.speechBufferCount = 0
        ∧ (List.replicate 6 (mkRat 5 100)).length = MIN_SPEECH_BUFFERS
        ∧ (∀ x ∈ List.replicate 6 (mkRat 5 100), SPEECH_THRESHOLD < x)
        ∧ (∀ y ∈ [mkRat 1 100], y < SPEECH_THRESHOLD))
      ∧ ((runFrames (List.replicate 6 (mkRat 5 100) ++ [mkRat 1 100]) listenState).2
            = [DetEvent.speechStart]
          ∧ (runFrames ((List.replicate 6 (mkRat 5 100)).take 5) listenState).2 = []
          ∧ (runFrames (List.replicate 6 (mkRat 5 100) ++ [mkRat 1 100]) listenState).1.speechBufferCount = 0
          ∧ (runFrames (List.replicate 6 (mkRat 5 100) ++ [mkRat 1 100]) listenState).1.recorderActive = true) :=
  ⟨⟨by decide, by decide, by decide, by decide, by decide, by decide, by decide⟩,
    claim3_speech_start_sixth listenState (List.replicate 6 (mkRat 5 100)) [mkRat 1 100]
      (by decide) (by decide) (by decide) (by decide) (by decide) (by decide) (by decide)⟩

/-- C7: while the recorder is active, the five second ceiling timeout fires
the very stop routine an explicit stop would run: the recorder becomes
inactive, the state moves to processing, the accumulated chunks are
finalised into the blob dispatched for processing, and the blob is nonempty
when some chunk carried data. -/
theorem claim7_ceiling_auto_stop (s : AppState)
    (hrec : s.recorderActive = true)
    (hdata : ∃ c ∈ s.chunks, c ≠ []) :
    step .ceiling s = onRecorderStop s
      ∧ (step .ceiling s).recorderActive = false
      ∧ (step .ceiling s).status = .processing
      ∧ (step .ceiling s).inFlight = true
      ∧ (step .ceiling s).lastSent = some s.chunks.flatten
      ∧ s.chunks.flatten ≠ [] := by
  have hne : s.chunks.flatten ≠ [] := by
    obtain ⟨c, hc, hcne⟩ := hdata
    intro hflat
    exact hcne (List.flatten_eq_nil_iff.mp hflat c hc)
  refine ⟨?_, ?_, ?_, ?_, ?_, hne⟩ <;>
    simp [step, stepE, ceilingFire, onRecorderStop, hrec]

/-- Witness for claim7_ceiling_auto_stop at the concrete recording state
holding one two-byte chunk. -/
theorem claim7_ceiling_auto_stop_witness :
    (recChunkState.recorderActive = true
        ∧ (∃ c ∈ recChunkState.chunks, c ≠ []))
      ∧ (step .ceiling recChunkState = onRecorderStop recChunkState
          ∧ (step .ceiling recChunkState).recorderActive = false
          ∧ (step .ceiling recChunkState).status = .processing
          ∧ (step .ceiling recChunkState).inFlight = true
          ∧ (step .ceiling recChunkState).lastSent = some recChunkState.chunks.flatten
          ∧ recChunkState.chunks.flatten ≠ []) :=
  ⟨⟨by decide, by decide⟩,
    claim7_ceiling_auto_stop recChunkState (by decide) (by decide)⟩

/-- C5 counterexample: when the pause call throws, hardStopAudio does not
reset the position and does not clear the source, because pause, reset and
clear share one try block; the remaining steps are skipped rather than
attempted independently. -/
theorem claim5_counterexample :
    (hardStopAudio stuckPause
        { controller := none, player := some hungEl, ttsStopped := false }).player
      = some { onended := false, onerror := false, onpause := false,
               paused := false, currentTime := 7, src := "blob:tts" }
      ∧ ¬ ((hardStopAudio stuckPause
            { controller := none, player := some hungEl, ttsStopped := false }).player
          = some { onended := false, onerror := false, onpause := false,
                   paused := true, currentTime := 0, src := "" }) := by
  decide

/-- C5 amended: hardStopAudio is idempotent, is safe with no active
playback, never propagates a step failure (the stopped flag at the end of
the function is always set), tears the element fully down when its own
steps succeed, and isolates the intercept hook from the element teardown;
but the element steps run inside one shared try block, so a failing step
skips the later element steps. -/
theorem claim5_hard_stop_amended :
    (∀ (f : FailSpec) (s : PlaybackState),
        hardStopAudio f (hardStopAudio f s) = hardStopAudio f s)
      ∧ (∀ (f : FailSpec) (c : Option Unit) (t : Bool),
          (hardStopAudio f { controller := c, player := none, ttsStopped := t }).player = none
            ∧ (hardStopAudio f { controller := c, player := none, ttsStopped := t }).ttsStopped = true)
      ∧ (∀ (c : Option Unit) (el : AudioEl) (t : Bool),
          hardStopAudio { interceptFails := false, elFails := fun _ => false }
              { controller := c, player := some el, ttsStopped := t }
            = { controller := none,
                player := some { onended := false, onerror := false, onpause := false,
                                 paused := true, currentTime := 0, src := "" },
                ttsStopped := true })
      ∧ (∀ (b : Bool) (g : ElStep → Bool) (s : PlaybackState),
          (hardStopAudio { interceptFails := b, elFails := g } s).player
            = (hardStopAudio { interceptFails := false, elFails := g } s).player)
      ∧ (∀ (f : FailSpec) (s : PlaybackState), (hardStopAudio f s).ttsStopped = true) := by
  refine ⟨?_, ?_, ?_, ?_, ?_⟩
  · intro f s
    cases s with
    | mk c p t =>
      cases p with
      | none =>
        cases c with
        | none => cases hI : f.interceptFails <;> simp [hardStopAudio, hI]
        | some u => cases hI : f.interceptFails <;> simp [hardStopAudio, hI]
      | some el =>
        have hrun : runTryBlock f.elFails elTeardownSteps
            (runTryBlock f.elFails elTeardownSteps el) = runTryBlock f.elFails elTeardownSteps el := by
          by_cases h1 : f.elFails .clearOnended <;>
            by_cases h2 : f.elFails .clearOnerror <;>
            by_cases h3 : f.elFails .clearOnpause <;>
            by_cases h4 : f.elFails .pauseStep <;>
            by_cases h5 : f.elFails .resetTime <;>
            by_cases h6 : f.elFails .clearSrc <;>
            by_cases h7 : f.elFails .loadStep <;>
            simp [runTryBlock, elTeardownSteps, applyElStep, h1, h2, h3, h4, h5, h6, h7]
        cases c with
        | none => cases hI : f.interceptFails <;> simp [hardStopAudio, hI, hrun]
        | some u => cases hI : f.interceptFails <;> simp [hardStopAudio, hI, hrun]
  · intro f c t
    cases c <;> cases hI : f.interceptFails <;> simp [hardStopAudio, hI]
  · intro c el t
    cases c <;> simp [hardStopAudio, runTryBlock, elTeardownSteps, applyElStep]
  · intro b g s
    cases s with
    | mk c p t => cases c <;> cases b <;> simp [hardStopAudio]
  · intro f s
    simp [hardStopAudio]

theorem playAudioResponse_recorderActive (a : String) (s : AppState) :
    (playAudioResponse a s).recorderActive = s.recorderActive := by
  unfold playAudioResponse
  cases hexDecode a <;> simp [startListening]

theorem playAudioResponse_isRecording (a : String) (s : AppState) :
    (playAudioResponse a s).isRecording = s.isRecording := by
  unfold playAudioResponse
  cases hexDecode a <;> simp [startListening]

theorem playAudioResponse_inFlight (a : String) (s : AppState) :
    (playAudioResponse a s).inFlight = s.inFlight := by
  unfold playAudioResponse
  cases hexDecode a <;> simp [startListening]

theorem playAudioResponse_messages (a : String) (s : AppState) :
    (playAudioResponse a s).messages = s.messages := by
  unfold playAudioResponse
  cases hexDecode a <;> simp [startListening]

theorem processAudioSuccess_recorderActive (t : Option String) (r : String)
    (a : Option String) (f : Option FilesMeta) (s : AppState) :
    (processAudioSuccess t r a f s).recorderActive = s.recorderActive := by
  unfold processAudioSuccess
  cases a with
  | none => simp [startListening]
  | some str =>
    by_cases h : str = "" <;> simp [h, startListening, playAudioResponse_recorderActive]

theorem processAudioSuccess_inFlight (t : Option String) (r : String)
    (a : Option String) (f : Option FilesMeta) (s : AppState) :
    (processAudioSuccess t r a f s).inFlight = s.inFlight := by
  unfold processAudioSuccess
  cases a with
  | none => simp [startListening]
  | some str =>
    by_cases h : str = "" <;> simp [h, startListening, playAudioResponse_inFlight]

theorem processAudioSuccess_messages (t : Option String) (r : String)
    (a : Option String) (f : Option FilesMeta) (s : AppState) :
    (processAudioSuccess t r a f s).messages
      = s.messages ++ [userMessage t f, assistantMessage r a] := by
  unfold processAudioSuccess
  cases a with
  | none => simp [startListening]
  | some str =>
    by_cases h : str = "" <;> simp [h, startListening, playAudioResponse_messages]

theorem onAudioProcess_no_vad (rms : ℚ) (s : AppState) (hv : s.vadActive = false) :
    onAudioProcess rms s = (s, none) := by
  simp [onAudioProcess, hv]

theorem onAudioProcess_interrupt_branch (rms : ℚ) (s : AppState)
    (hv : s.vadActive = true) (hsp : s.status = .speaking)
    (hr : INTERRUPT_THRESHOLD < rms) :
    onAudioProcess rms s
      = (startRecording (stopListening { s with playing := false, status := .listening }),
         some .interrupt) := by
  simp [onAudioProcess, hv, hsp, hr]

theorem onAudioProcess_fire_branch (rms : ℚ) (s : AppState)
    (hv : s.vadActive = true) (hns : ¬ (s.status = .speaking ∧ INTERRUPT_THRESHOLD < rms))
    (hst : SPEECH_THRESHOLD < rms)
    (hg : MIN_SPEECH_BUFFERS ≤ s.speechBufferCount + 1) (hrec : s.isRecording = false) :
    onAudioProcess rms s
      = ({ startRecording (stopListening
            { s with speechBufferCount := s.speechBufferCount + 1, isRecording := true })
            with speechBufferCount := 0 }, some .speechStart) := by
  simp [onAudioProcess, hv, hns, hst, hg, hrec]

theorem onAudioProcess_count_move_branch (rms : ℚ) (s : AppState)
    (hv : s.vadActive = true) (hns : ¬ (s.status = .speaking ∧ INTERRUPT_THRESHOLD < rms))
    (hst : SPEECH_THRESHOLD < rms)
    (hng : ¬ (MIN_SPEECH_BUFFERS ≤ s.speechBufferCount + 1 ∧ s.isRecording = false))
    (hls : s.status ≠ .listening ∧ s.status ≠ .processing) :
    onAudioProcess rms s
      = ({ s with speechBufferCount := s.speechBufferCount + 1, status := .listening },
         none) := by
  simp [onAudioProcess, hv, hns, hst, hng, hls]

theorem onAudioProcess_count_keep_branch (rms : ℚ) (s : AppState)
    (hv : s.vadActive = true) (hns : ¬ (s.status = .speaking ∧ INTERRUPT_THRESHOLD < rms))
    (hst : SPEECH_THRESHOLD < rms)
    (hng : ¬ (MIN_SPEECH_BUFFERS ≤ s.speechBufferCount + 1 ∧ s.isRecording = false))
    (hnls : ¬ (s.status ≠ .listening ∧ s.status ≠ .processing)) :
    onAudioProcess rms s
      = ({ s with speechBufferCount := s.speechBufferCount + 1 }, none) := by
  simp [onAudioProcess, hv, hns, hst, hng, hnls]

theorem onAudioProcess_quiet_branch (rms : ℚ) (s : AppState)
    (hv : s.vadActive = true) (hns : ¬ (s.status = .speaking ∧ INTERRUPT_THRESHOLD < rms))
    (hnst : ¬ SPEECH_THRESHOLD < rms) :
    onAudioProcess rms s = ({ s with speechBufferCount := 0 }, none) := by
  simp [onAudioProcess, hv, hns, hnst]

theorem onStopContinue_status (s : AppState) : (onStopContinue s).status = .waiting := rfl

theorem onStopContinue_isRecording (s : AppState) :
    (onStopContinue s).isRecording = false := rfl

theorem onStopContinue_vadActive (s : AppState) : (onStopContinue s).vadActive = true := rfl

theorem onStopContinue_recorderActive (s : AppState) :
    (onStopContinue s).recorderActive = s.recorderActive := rfl

theorem onStopContinue_inFlight (s : AppState) :
    (onStopContinue s).inFlight = s.inFlight := rfl

theorem onStopContinue_messages (s : AppState) :
    (onStopContinue s).messages = s.messages := rfl

theorem processAudioFailure_recorderActive (s : AppState) :
    (processAudioFailure s).recorderActive = s.recorderActive := rfl

theorem processAudioFailure_inFlight (s : AppState) :
    (processAudioFailure s).inFlight = s.inFlight := rfl

theorem reachable_controller_inv (s : AppState) (h : Reachable s) : ControllerInv s := by
  induction h with
  | init =>
    unfold ControllerInv
    refine ⟨?_, ?_, ?_⟩ <;> simp [initState]
  | next e hr ih =>
    rename_i s'
    obtain ⟨ih1, ih2, ih3⟩ := ih
    unfold ControllerInv
    cases e with
    | frame rms =>
      by_cases hv : s'.vadActive = false
      · have hstep : step (.frame rms) s' = s' := by
          simp [step, stepE, onAudioProcess_no_vad rms s' hv]
        rw [hstep]
        exact ⟨ih1, ih2, ih3⟩
      · replace hv : s'.vadActive = true := by simpa using hv
        have hns : ¬ (s'.status = .speaking ∧ INTERRUPT_THRESHOLD < rms) := by
          intro hc; exact ih3 hc.1
        by_cases hst : SPEECH_THRESHOLD < rms
        · by_cases hg : MIN_SPEECH_BUFFERS ≤ s'.speechBufferCount + 1 ∧ s'.isRecording = false
          · have hnf : s'.inFlight = false := by
              by_contra hcon
              have h1 : s'.isRecording = true := ih1 (Or.inr (Or.inr (by simpa using hcon)))
              rw [h1] at hg
              exact absurd hg.2 (by simp)
            have hstep : step (.frame rms) s'
                = { startRecording (stopListening
                    { s' with speechBufferCount := s'.speechBufferCount + 1,
                              isRecording := true })
                    with speechBufferCount := 0 } := by
              simp [step, stepE, onAudioProcess_fire_branch rms s' hv hns hst hg.1 hg.2]
            rw [hstep]
            refine ⟨fun _ => rfl, ?_, ?_⟩
            · intro hif
              have hif2 : s'.inFlight = true := hif
              exact absurd hif2 (by simp [hnf])
            · intro hcon
              simp [startRecording, stopListening] at hcon
          · by_cases hls : s'.status ≠ .listening ∧ s'.status ≠ .processing
            · have hstep : step (.frame rms) s'
                  = { s' with speechBufferCount := s'.speechBufferCount + 1,
                              status := .listening } := by
                simp [step, stepE, onAudioProcess_count_move_branch rms s' hv hns hst hg hls]
              rw [hstep]
              refine ⟨?_, ih2, ?_⟩
              · intro hd
                rcases hd with h0 | h1 | h2
                · simp at h0
                · exact ih1 (Or.inr (Or.inl h1))
                · exact ih1 (Or.inr (Or.inr h2))
              · intro hcon
                simp at hcon
            · have hstep : step (.frame rms) s'
                  = { s' with speechBufferCount := s'.speechBufferCount + 1 } := by
                simp [step, stepE, onAudioProcess_count_keep_branch rms s' hv hns hst hg hls]
              rw [hstep]
              exact ⟨ih1, ih2, ih3⟩
        · have hstep : step (.frame rms) s' = { s' with speechBufferCount := 0 } := by
            simp [step, stepE, onAudioProcess_quiet_branch rms s' hv hns hst]
          rw [hstep]
          exact ⟨ih1, ih2, ih3⟩
    | chunk data =>
      by_cases hrc : s'.recorderActive = true
      · have hstep : step (.chunk data) s' = { s' with chunks := s'.chunks ++ [data] } := by
          simp [step, stepE, onDataAvailable, hrc]
        rw [hstep]
        exact ⟨ih1, ih2, ih3⟩
      · have hstep : step (.chunk data) s' = s' := by
          simp [step, stepE, onDataAvailable, hrc]
        rw [hstep]
        exact ⟨ih1, ih2, ih3⟩
    | ceiling =>
      by_cases hrc : s'.recorderActive = true
      · have h1 : s'.isRecording = true := ih1 (Or.inr (Or.inl hrc))
        have hstep : step .ceiling s' = onRecorderStop s' := by
          simp [step, stepE, ceilingFire, hrc]
        rw [hstep]
        refine ⟨fun _ => h1, fun _ => rfl, ?_⟩
        intro hcon
        simp [onRecorderStop] at hcon
      · have hstep : step .ceiling s' = s' := by
          simp [step, stepE, ceilingFire, hrc]
        rw [hstep]
        exact ⟨ih1, ih2, ih3⟩
    | serviceOk t r a f =>
      by_cases hf : s'.inFlight = true
      · have hr0 : s'.recorderActive = false := ih2 hf
        have hstep : step (.serviceOk t r a f) s'
            = onStopContinue (processAudioSuccess t r a f { s' with inFlight := false }) := by
          simp [step, stepE, hf]
        rw [hstep]
        refine ⟨?_, ?_, ?_⟩
        · intro hd
          rcases hd with h0 | h1 | h2
          · rw [onStopContinue_status] at h0
            exact absurd h0 (by decide)
          · rw [onStopContinue_recorderActive, processAudioSuccess_recorderActive] at h1
            simp [hr0] at h1
          · rw [onStopContinue_inFlight, processAudioSuccess_inFlight] at h2
            simp at h2
        · intro hif
          rw [onStopContinue_inFlight, processAudioSuccess_inFlight] at hif
          simp at hif
        · rw [onStopContinue_status]
          decide
      · have hstep : step (.serviceOk t r a f) s' = s' := by
          simp [step, stepE, hf]
        rw [hstep]
        exact ⟨ih1, ih2, ih3⟩
    | serviceErr =>
      by_cases hf : s'.inFlight = true
      · have hr0 : s'.recorderActive = false := ih2 hf
        have hstep : step .serviceErr s'
            = onStopContinue (processAudioFailure { s' with inFlight := false }) := by
          simp [step, stepE, hf]
        rw [hstep]
        refine ⟨?_, ?_, ?_⟩
        · intro hd
          rcases hd with h0 | h1 | h2
          · rw [onStopContinue_status] at h0
            exact absurd h0 (by decide)
          · rw [onStopContinue_recorderActive, processAudioFailure_recorderActive] at h1
            simp [hr0] at h1
          · rw [onStopContinue_inFlight, processAudioFailure_inFlight] at h2
            simp at h2
        · intro hif
          rw [onStopContinue_inFlight, processAudioFailure_inFlight] at hif
          simp at hif
        · rw [onStopContinue_status]
          decide
      · have hstep : step .serviceErr s' = s' := by
          simp [step, stepE, hf]
        rw [hstep]
        exact ⟨ih1, ih2, ih3⟩
    | playEnded =>
      by_cases hp : s'.playing = true
      · have hstep : step .playEnded s'
            = startListening { s' with playing := false, status := .waiting } := by
          simp [step, stepE, hp]
        rw [hstep]
        refine ⟨?_, ih2, ?_⟩
        · intro hd
          rcases hd with h0 | h1 | h2
          · simp [startListening] at h0
          · exact ih1 (Or.inr (Or.inl h1))
          · exact ih1 (Or.inr (Or.inr h2))
        · intro hcon
          simp [startListening] at hcon
      · have hstep : step .playEnded s' = s' := by
          simp [step, stepE, hp]
        rw [hstep]
        exact ⟨ih1, ih2, ih3⟩

/-- C6: in every reachable state, the single-writer lock is held while the
state is processing or the recorder is active; while processing, a frame
event never starts a recording, never emits, and leaves the recorder, the
status and the lock untouched, because the lock check rejects it; and any
step that releases the lock lands exactly on the reopened listening state. -/
theorem claim6_processing_blocks_recording (s : AppState) (h : Reachable s) :
    (s.status = .processing → s.isRecording = true)
      ∧ (s.recorderActive = true → s.isRecording = true)
      ∧ (∀ rms : ℚ, s.status = .processing →
          (stepE (.frame rms) s).2 = none
            ∧ (step (.frame rms) s).recorderActive = s.recorderActive
            ∧ (step (.frame rms) s).status = .processing
            ∧ (step (.frame rms) s).isRecording = true)
      ∧ (∀ e : Ev, s.isRecording = true → (step e s).isRecording = false →
          (step e s).vadActive = true ∧ (step e s).status = .waiting) := by
  obtain ⟨inv1, inv2, inv3⟩ := reachable_controller_inv s h
  refine ⟨fun hp => inv1 (Or.inl hp), fun hrc => inv1 (Or.inr (Or.inl hrc)), ?_, ?_⟩
  · intro rms hproc
    have hrec1 : s.isRecording = true := inv1 (Or.inl hproc)
    by_cases hv : s.vadActive = false
    · have hstep := onAudioProcess_no_vad rms s hv
      refine ⟨?_, ?_, ?_, ?_⟩ <;> simp [step, stepE, hstep, hproc, hrec1]
    · replace hv : s.vadActive = true := by simpa using hv
      have hns : ¬ (s.status = .speaking ∧ INTERRUPT_THRESHOLD < rms) := by
        intro hc
        rw [hproc] at hc
        exact absurd hc.1 (by decide)
      have hng : ¬ (MIN_SPEECH_BUFFERS ≤ s.speechBufferCount + 1 ∧ s.isRecording = false) := by
        intro hc
        rw [hrec1] at hc
        exact absurd hc.2 (by simp)
      have hnls : ¬ (s.status ≠ .listening ∧ s.status ≠ .processing) := by
        intro hc
        exact hc.2 hproc
      by_cases hst : SPEECH_THRESHOLD < rms
      · have hstep := onAudioProcess_count_keep_branch rms s hv hns hst hng hnls
        refine ⟨?_, ?_, ?_, ?_⟩ <;> simp [step, stepE, hstep, hproc, hrec1]
      · have hstep := onAudioProcess_quiet_branch rms s hv hns hst
        refine ⟨?_, ?_, ?_, ?_⟩ <;> simp [step, stepE, hstep, hproc, hrec1]
  · intro e hrec hcleared
    cases e with
    | frame rms =>
      exfalso
      by_cases hv : s.vadActive = false
      · rw [show step (.frame rms) s = s from by simp [step, stepE, onAudioProcess_no_vad rms s hv]] at hcleared
        rw [hrec] at hcleared
        exact absurd hcleared (by simp)
      · replace hv : s.vadActive = true := by simpa using hv
        have hns : ¬ (s.status = .speaking ∧ INTERRUPT_THRESHOLD < rms) := by
          intro hc; exact inv3 hc.1
        have hng : ¬ (MIN_SPEECH_BUFFERS ≤ s.speechBufferCount + 1 ∧ s.isRecording = false) := by
          intro hc
          rw [hrec] at hc
          exact absurd hc.2 (by simp)
        by_cases hst : SPEECH_THRESHOLD < rms
        · by_cases hls : s.status ≠ .listening ∧ s.status ≠ .processing
          · rw [show step (.frame rms) s
                = { s with speechBufferCount := s.speechBufferCount + 1, status := .listening }
                from by simp [step, stepE, onAudioProcess_count_move_branch rms s hv hns hst hng hls]] at hcleared
            have : s.isRecording = false := hcleared
            rw [hrec] at this
            exact absurd this (by simp)
          · rw [show step (.frame rms) s
                = { s with speechBufferCount := s.speechBufferCount + 1 }
                from by simp [step, stepE, onAudioProcess_count_keep_branch rms s hv hns hst hng hls]] at hcleared
            have : s.isRecording = false := hcleared
            rw [hrec] at this
            exact absurd this (by simp)
        · rw [show step (.frame rms) s = { s with speechBufferCount := 0 }
              from by simp [step, stepE, onAudioProcess_quiet_branch rms s hv hns hst]] at hcleared
          have : s.isRecording = false := hcleared
          rw [hrec] at this
          exact absurd this (by simp)
    | chunk data =>
      exfalso
      by_cases hrc : s.recorderActive = true
      · rw [show step (.chunk data) s = { s with chunks := s.chunks ++ [data] }
            from by simp [step, stepE, onDataAvailable, hrc]] at hcleared
        have : s.isRecording = false := hcleared
        rw [hrec] at this
        exact absurd this (by simp)
      · rw [show step (.chunk data) s = s from by simp [step, stepE, onDataAvailable, hrc]] at hcleared
        rw [hrec] at hcleared
        exact absurd hcleared (by simp)
    | ceiling =>
      exfalso
      by_cases hrc : s.recorderActive = true
      · rw [show step .ceiling s = onRecorderStop s
            from by simp [step, stepE, ceilingFire, hrc]] at hcleared
        have : s.isRecording = false := hcleared
        rw [hrec] at this
        exact absurd this (by simp)
      · rw [show step .ceiling s = s from by simp [step, stepE, ceilingFire, hrc]] at hcleared
        rw [hrec] at hcleared
        exact absurd hcleared (by simp)
    | serviceOk t r a f =>
      by_cases hf : s.inFlight = true
      · rw [show step (.serviceOk t r a f) s
            = onStopContinue (processAudioSuccess t r a f { s with inFlight := false })
            from by simp [step, stepE, hf]]
        exact ⟨onStopContinue_vadActive _, onStopContinue_status _⟩
      · exfalso
        rw [show step (.serviceOk t r a f) s = s from by simp [step, stepE, hf]] at hcleared
        rw [hrec] at hcleared
        exact absurd hcleared (by simp)
    | serviceErr =>
      by_cases hf : s.inFlight = true
      · rw [show step .serviceErr s
            = onStopContinue (processAudioFailure { s with inFlight := false })
            from by simp [step, stepE, hf]]
        exact ⟨onStopContinue_vadActive _, onStopContinue_status _⟩
      · exfalso
        rw [show step .serviceErr s = s from by simp [step, stepE, hf]] at hcleared
        rw [hrec] at hcleared
        exact absurd hcleared (by simp)
    | playEnded =>
      exfalso
      by_cases hp : s.playing = true
      · rw [show step .playEnded s = startListening { s with playing := false, status := .waiting }
            from by simp [step, stepE, hp]] at hcleared
        have : s.isRecording = false := hcleared
        rw [hrec] at this
        exact absurd this (by simp)
      · rw [show step .playEnded s = s from by simp [step, stepE, hp]] at hcleared
        rw [hrec] at hcleared
        exact absurd hcleared (by simp)

/-- Witness for claim6_processing_blocks_recording at the concrete reachable
processing state, reached by six loud frames, one chunk and the ceiling. -/
theorem claim6_processing_blocks_recording_witness :
    (procState.status = .processing)
      ∧ ((stepE (.frame (mkRat 5 100)) procState).2 = none
          ∧ (step (.frame (mkRat 5 100)) procState).recorderActive = procState.recorderActive
          ∧ (step (.frame (mkRat 5 100)) procState).status = .processing
          ∧ (step (.frame (mkRat 5 100)) procState).isRecording = true) :=
  ⟨by decide,
    (claim6_processing_blocks_recording procState
        (Reachable.next .ceiling (Reachable.next (.chunk [82, 73])
          (Reachable.next loudFrame (Reachable.next loudFrame (Reachable.next loudFrame
            (Reachable.next loudFrame (Reachable.next loudFrame
              (Reachable.next loudFrame Reachable.init))))))))).2.2.1
      (mkRat 5 100) (by decide)⟩

theorem processAudioFailure_messages (s : AppState) :
    (processAudioFailure s).messages = s.messages ++ [fallbackMessage] := rfl

theorem onStopContinue_playing (s : AppState) : (onStopContinue s).playing = s.playing := rfl

theorem onStopContinue_decodeCalls (s : AppState) :
    (onStopContinue s).decodeCalls = s.decodeCalls := rfl

theorem playAudioResponse_playing_of_decode (a : String) (s : AppState)
    (bytes : List Nat) (h : hexDecode a = some bytes) :
    (playAudioResponse a s).playing = true := by
  simp [playAudioResponse, h]

theorem playAudioResponse_decodeCalls (a : String) (s : AppState) :
    (playAudioResponse a s).decodeCalls = s.decodeCalls + 1 := by
  unfold playAudioResponse
  cases hexDecode a <;> simp [startListening]

/-- C2 counterexample: the odd-length hex string abc does not fail to
decode; it yields the bytes 171 and 12, the two regular messages are
appended with no fallback, and the component proceeds to playback. -/
theorem claim2_counterexample :
    hexDecode "abc" ≠ none
      ∧ hexDecode "abc" = some [171, 12]
      ∧ (step (.serviceOk (some "hello") "hi there" (some "abc") none) procState).messages
          = [userMessage (some "hello") none, assistantMessage "hi there" (some "abc")]
      ∧ userMessage (some "hello") none ≠ fallbackMessage
      ∧ assistantMessage "hi there" (some "abc") ≠ fallbackMessage
      ∧ (step (.serviceOk (some "hello") "hi there" (some "abc") none) procState).playing
          = true := by
  decide

/-- C2 amended: every audio string whose character data contains at least
one chunk the match can return decodes successfully with the lenient
parseInt semantics, no error is raised, the two regular messages are
appended with no fallback message, and the system proceeds to playback with
the frame callback re-armed; only a string of line terminators, the empty
string included, would make the non-null assertion throw, and even that is
caught inside playAudioResponse. -/
theorem claim2_malformed_audio_amended (s : AppState) (t : Option String)
    (r a : String) (f : Option FilesMeta)
    (hin : s.inFlight = true) (ha : jsDotChunks a.data ≠ []) :
    (∃ bytes, hexDecode a = some bytes)
      ∧ (step (.serviceOk t r (some a) f) s).messages
          = s.messages ++ [userMessage t f, assistantMessage r (some a)]
      ∧ (step (.serviceOk t r (some a) f) s).playing = true
      ∧ (step (.serviceOk t r (some a) f) s).vadActive = true
      ∧ (step (.serviceOk t r (some a) f) s).status = .waiting := by
  have hane : a ≠ "" := by
    intro hcon
    rw [hcon] at ha
    exact ha rfl
  obtain ⟨bytes, hdec⟩ : ∃ bytes, hexDecode a = some bytes := by
    cases hch : jsDotChunks a.data with
    | nil => exact absurd hch ha
    | cons c cs =>
      refine ⟨(c :: cs).map (fun ch => jsToUint8 (jsParseIntHex ch)), ?_⟩
      simp [hexDecode, hch]
  have hstep : step (.serviceOk t r (some a) f) s
      = onStopContinue (processAudioSuccess t r (some a) f { s with inFlight := false }) := by
    simp [step, stepE, hin]
  have hplay : (processAudioSuccess t r (some a) f { s with inFlight := false }).playing
      = true := by
    simp [processAudioSuccess, hane, playAudioResponse_playing_of_decode a _ bytes hdec]
  refine ⟨⟨bytes, hdec⟩, ?_, ?_, ?_, ?_⟩
  · rw [hstep, onStopContinue_messages, processAudioSuccess_messages]
  · rw [hstep, onStopContinue_playing, hplay]
  · rw [hstep, onStopContinue_vadActive]
  · rw [hstep, onStopContinue_status]

/-- Witness for claim2_malformed_audio_amended at the concrete processing
state and the odd-length string abc. -/
theorem claim2_malformed_audio_amended_witness :
    (procState.inFlight = true ∧ jsDotChunks ("abc" : String).data ≠ [])
      ∧ ((∃ bytes, hexDecode "abc" = some bytes)
          ∧ (step (.serviceOk (some "hello") "hi there" (some "abc") none) procState).messages
              = procState.messages
                  ++ [userMessage (some "hello") none, assistantMessage "hi there" (some "abc")]
          ∧ (step (.serviceOk (some "hello") "hi there" (some "abc") none) procState).playing = true
          ∧ (step (.serviceOk (some "hello") "hi there" (some "abc") none) procState).vadActive = true
          ∧ (step (.serviceOk (some "hello") "hi there" (some "abc") none) procState).status = .waiting) :=
  ⟨⟨by decide, by decide⟩,
    claim2_malformed_audio_amended procState (some "hello") "hi there" "abc" none
      (by decide) (by decide)⟩

/-- C9 counterexample: a response whose transcription field is present but
empty produces a user message holding the default text, not the returned
empty transcription, because the JavaScript or-else treats the empty string
as falsy. -/
theorem claim9_counterexample :
    (step (.serviceOk (some "") "ok" none none) procState).messages
        = [userMessage (some "") none, assistantMessage "ok" none]
      ∧ (userMessage (some "") none).content = "Transcription not available"
      ∧ ("Transcription not available" : String) ≠ "" := by
  decide

/-- C9 amended: a successful call appends exactly the user and assistant
pair, the user content defaulting to the fixed text when the transcription
is absent or empty, the assistant content being the response text; a failed
call appends exactly the one fallback assistant message. -/
theorem claim9_log_growth_amended (s : AppState) (t : Option String) (r : String)
    (a : Option String) (f : Option FilesMeta) (hin : s.inFlight = true) :
    (step (.serviceOk t r a f) s).messages
        = s.messages ++ [userMessage t f, assistantMessage r a]
      ∧ (userMessage t f).role = .user
      ∧ (userMessage t f).content
          = (match t with
             | none => "Transcription not available"
             | some str => if str = "" then "Transcription not available" else str)
      ∧ (assistantMessage r a).role = .assistant
      ∧ (assistantMessage r a).content = r
      ∧ (step .serviceErr s).messages = s.messages ++ [fallbackMessage]
      ∧ fallbackMessage.role = .assistant := by
  have hstep : step (.serviceOk t r a f) s
      = onStopContinue (processAudioSuccess t r a f { s with inFlight := false }) := by
    simp [step, stepE, hin]
  have hstep2 : step .serviceErr s
      = onStopContinue (processAudioFailure { s with inFlight := false }) := by
    simp [step, stepE, hin]
  refine ⟨?_, rfl, rfl, rfl, rfl, ?_, rfl⟩
  · rw [hstep, onStopContinue_messages, processAudioSuccess_messages]
  · rw [hstep2, onStopContinue_messages, processAudioFailure_messages]

/-- Witness for claim9_log_growth_amended at the concrete processing
state. -/
theorem claim9_log_growth_amended_witness :
    (procState.inFlight = true)
      ∧ ((step (.serviceOk (some "hello") "hi there" none none) procState).messages
            = procState.messages ++ [userMessage (some "hello") none, assistantMessage "hi there" none]
          ∧ (step .serviceErr procState).messages = procState.messages ++ [fallbackMessage]) :=
  ⟨by decide,
    ⟨(claim9_log_growth_amended procState (some "hello") "hi there" none none (by decide)).1,
      (claim9_log_growth_amended procState (some "hello") "hi there" none none (by decide)).2.2.2.2.2.1⟩⟩

/-- C10: an audio field present but equal to the empty string takes the same
path as an absent audio field: the component resumes listening identically
in status, callback and playback, and the hex decoder is never invoked, so
the null-match crash of the decoder on the empty string, which hexDecode
exhibits, stays unreachable from the processAudio path; the decoder runs
only when the audio field holds a nonempty string. -/
theorem claim10_empty_audio_like_absent (s : AppState) (t : Option String)
    (r : String) (f : Option FilesMeta) (hin : s.inFlight = true) :
    hexDecode "" = none
      ∧ (step (.serviceOk t r (some "") f) s).status
          = (step (.serviceOk t r none f) s).status
      ∧ (step (.serviceOk t r (some "") f) s).vadActive
          = (step (.serviceOk t r none f) s).vadActive
      ∧ (step (.serviceOk t r (some "") f) s).vadActive = true
      ∧ (step (.serviceOk t r (some "") f) s).playing
          = (step (.serviceOk t r none f) s).playing
      ∧ (step (.serviceOk t r (some "") f) s).decodeCalls = s.decodeCalls
      ∧ (step (.serviceOk t r none f) s).decodeCalls = s.decodeCalls
      ∧ (∀ a : Option String,
          (step (.serviceOk t r a f) s).decodeCalls ≠ s.decodeCalls →
            ∃ str, a = some str ∧ str ≠ "") := by
  have hempty : ∀ (b : AppState),
      processAudioSuccess t r (some "") f b = startListening
        { b with messages := b.messages ++ [userMessage t f, assistantMessage r (some "")] } := by
    intro b
    simp [processAudioSuccess]
  have habsent : ∀ (b : AppState),
      processAudioSuccess t r none f b = startListening
        { b with messages := b.messages ++ [userMessage t f, assistantMessage r none] } := by
    intro b
    simp [processAudioSuccess]
  have hstep1 : step (.serviceOk t r (some "") f) s
      = onStopContinue (processAudioSuccess t r (some "") f { s with inFlight := false }) := by
    simp [step, stepE, hin]
  have hstep2 : step (.serviceOk t r none f) s
      = onStopContinue (processAudioSuccess t r none f { s with inFlight := false }) := by
    simp [step, stepE, hin]
  refine ⟨rfl, ?_, ?_, ?_, ?_, ?_, ?_, ?_⟩
  · rw [hstep1, hstep2, onStopContinue_status, onStopContinue_status]
  · rw [hstep1, hstep2, onStopContinue_vadActive, onStopContinue_vadActive]
  · rw [hstep1, onStopContinue_vadActive]
  · rw [hstep1, hstep2, onStopContinue_playing, onStopContinue_playing,
      hempty, habsent]
    simp [startListening]
  · rw [hstep1, onStopContinue_decodeCalls, hempty]
    simp [startListening]
  · rw [hstep2, onStopContinue_decodeCalls, habsent]
    simp [startListening]
  · intro a hne
    cases a with
    | none =>
      exfalso
      apply hne
      rw [hstep2, onStopContinue_decodeCalls, habsent]
      simp [startListening]
    | some str =>
      by_cases hstr : str = ""
      · exfalso
        apply hne
        rw [hstr]
        rw [show step (.serviceOk t r (some "") f) s
            = onStopContinue (processAudioSuccess t r (some "") f { s with inFlight := false })
            from hstep1, onStopContinue_decodeCalls, hempty]
        simp [startListening]
      · exact ⟨str, rfl, hstr⟩

/-- Witness for claim10_empty_audio_like_absent at the concrete processing
state. -/
theorem claim10_empty_audio_like_absent_witness :
    (procState.inFlight = true)
      ∧ (hexDecode "" = none
          ∧ (step (.serviceOk (some "hello") "hi there" (some "") none) procState).decodeCalls
              = procState.decodeCalls
          ∧ (step (.serviceOk (some "hello") "hi there" (some "") none) procState).vadActive = true) :=
  ⟨by decide,
    ⟨(claim10_empty_audio_like_absent procState (some "hello") "hi there" none (by decide)).1,
      (claim10_empty_audio_like_absent procState (some "hello") "hi there" none (by decide)).2.2.2.2.2.1,
      (claim10_empty_audio_like_absent procState (some "hello") "hi there" none (by decide)).2.2.2.1⟩⟩

theorem sumSquares_foldl (l : List ℚ) (a : ℚ) :
    l.foldl (fun acc sample => acc + sample * sample) a
      = a + (l.map (fun x => x * x)).sum := by
  induction l generalizing a with
  | nil => simp
  | cons x xs ih => simp [ih, add_assoc]

theorem sumSquares_eq (l : List ℚ) : sumSquares l = (l.map (fun x => x * x)).sum := by
  simp [sumSquares, sumSquares_foldl]

theorem meanSquare_nonneg (l : List ℚ) : 0 ≤ meanSquare l := by
  unfold meanSquare
  apply div_nonneg
  · apply List.sum_nonneg
    intro x hx
    obtain ⟨y, _, rfl⟩ := List.mem_map.mp hx
    exact mul_self_nonneg y
  · exact_mod_cast Nat.zero_le l.length

theorem drop_take_key (l : List ℚ) (m w : Nat) :
    (l.drop m).take w ++ l.drop (m + w) = l.drop m := by
  conv_rhs => rw [← List.take_append_drop w (l.drop m)]
  rw [List.drop_drop]

theorem flatten_ranges (l : List ℚ) (w : Nat) (k : Nat) :
    ((List.range k).map (fun i => (l.drop (i * w)).take w)).flatten ++ l.drop (k * w)
      = l := by
  induction k with
  | zero => simp
  | succ k ih =>
    rw [List.range_succ, List.map_append, List.flatten_append]
    simp only [List.map_cons, List.map_nil, List.flatten_cons, List.flatten_nil,
      List.append_nil]
    rw [List.append_assoc, show (k + 1) * w = k * w + w from by ring,
      drop_take_key l (k * w) w]
    exact ih

theorem specSubrange_flatten (frame : List ℚ) :
    ((List.range 8).map (specSubrange frame)).flatten = frame := by
  have h8 : List.range 8 = List.range 7 ++ [7] := by decide
  have hmap : (List.range 7).map (specSubrange frame)
      = (List.range 7).map (fun i => (frame.drop (i * (frame.length / 8))).take
          (frame.length / 8)) := by
    apply List.map_eq_map_iff.mpr
    intro i hi
    have : i ≠ 7 := by
      have := List.mem_range.mp hi
      omega
    simp [specSubrange, this]
  have hlast : specSubrange frame 7
      = frame.drop (7 * (frame.length / 8)) := by
    simp only [specSubrange, if_pos rfl]
    apply List.take_of_length_le
    simp [List.length_drop]
  rw [h8, List.map_append, List.flatten_append, hmap]
  simp only [List.map_cons, List.map_nil, List.flatten_cons, List.flatten_nil,
    List.append_nil]
  rw [hlast]
  exact flatten_ranges frame (frame.length / 8) 7

theorem code_band_slice (frame : List ℚ) (i : Nat) (hi : i < 8) :
    (frame.take (if i = 7 then frame.length else (i + 1) * (frame.length / 8))).drop
        (i * (frame.length / 8))
      = specSubrange frame i := by
  by_cases h7 : i = 7
  · subst h7
    have h1 : (if (7 : Nat) = 7 then frame.length else (7 + 1) * (frame.length / 8))
        = frame.length := by simp
    have h2 : specSubrange frame 7
        = (frame.drop (7 * (frame.length / 8))).take
            (frame.length - 7 * (frame.length / 8)) := by
      simp [specSubrange]
    rw [h1, h2, List.take_length]
    symm
    apply List.take_of_length_le
    simp [List.length_drop]
  · simp only [if_neg h7, specSubrange]
    rw [List.drop_take]
    congr 1
    have hmul : (i + 1) * (frame.length / 8)
        = i * (frame.length / 8) + frame.length / 8 := by ring
    omega

/-- C8: the energy analysis of the frame callback is deterministic and
meets its defining equations: the rms is the abstract square root of the
mean squared amplitude of the whole frame, the band vector has 8 entries,
entry i equals the spec band value, the clamped scaled root of the mean
square of the i-th contiguous sub-range of width floor of n over 8 with the
last sub-range absorbing the remainder, every entry lies in the unit
interval, and the eight sub-ranges partition the frame. -/
theorem claim8_energy_analysis (sq : ℚ → ℚ) (frame : List ℚ)
    (hsq : ∀ q : ℚ, 0 ≤ q → 0 ≤ sq q) :
    (∀ g : List ℚ, frame = g → analyze sq frame = analyze sq g)
      ∧ (analyze sq frame).bands.length = 8
      ∧ (analyze sq frame).rms = sq (meanSquare frame)
      ∧ (∀ i : Nat, i < 8 →
          (analyze sq frame).bands[i]? = some (specBandValue sq frame i))
      ∧ (∀ i : Nat, i < 8 →
          0 ≤ specBandValue sq frame i ∧ specBandValue sq frame i ≤ 1)
      ∧ (∀ i : Nat, i < 7 → (specSubrange frame i).length = frame.length / 8)
      ∧ (specSubrange frame 7).length = frame.length - 7 * (frame.length / 8)
      ∧ ((List.range 8).map (specSubrange frame)).flatten = frame := by
  refine ⟨?_, ?_, ?_, ?_, ?_, ?_, ?_, specSubrange_flatten frame⟩
  · intro g hg
    rw [hg]
  · simp [analyze]
  · simp [analyze, sumSquares_eq, meanSquare]
  · intro i hi
    unfold analyze
    simp only []
    rw [List.getElem?_map, List.getElem?_range hi]
    simp only [Option.map_some']
    have hslice := code_band_slice frame i hi
    rw [hslice]
    unfold specBandValue
    rw [sumSquares_eq]
    have hnn : 0 ≤ sq (meanSquare (specSubrange frame i)) * 10 :=
      mul_nonneg (hsq _ (meanSquare_nonneg _)) (by norm_num)
    rw [max_eq_right hnn]
    rfl
  · intro i hi
    unfold specBandValue
    constructor
    · exact le_min (by norm_num) (le_max_left 0 _)
    · exact min_le_left 1 _
  · intro i hi
    have hw : 8 * (frame.length / 8) ≤ frame.length := by
      rw [Nat.mul_comm]
      exact Nat.div_mul_le_self frame.length 8
    have hiw : (i + 1) * (frame.length / 8) ≤ 8 * (frame.length / 8) :=
      Nat.mul_le_mul_right _ (by omega)
    have hsum : i * (frame.length / 8) + frame.length / 8 ≤ frame.length := by
      have : (i + 1) * (frame.length / 8)
          = i * (frame.length / 8) + frame.length / 8 := by ring
      omega
    have h7 : i ≠ 7 := by omega
    simp only [specSubrange, if_neg h7]
    rw [List.length_take, List.length_drop]
    omega
  · have h2 : specSubrange frame 7
        = (frame.drop (7 * (frame.length / 8))).take
            (frame.length - 7 * (frame.length / 8)) := by
      simp [specSubrange]
    rw [h2, List.length_take, List.length_drop]
    omega

/-- Witness for claim8_energy_analysis with the identity as the abstract
root and a frame of ten samples. -/
theorem claim8_energy_analysis_witness :
    (∀ q : ℚ, 0 ≤ q → 0 ≤ (fun x : ℚ => x) q)
      ∧ ((analyze (fun x : ℚ => x) [1, 0, 1, 0, 1, 0, 1, 0, 1, 0]).bands.length = 8
          ∧ ((List.range 8).map
              (specSubrange [1, 0, 1, 0, 1, 0, 1, 0, 1, 0])).flatten
            = [1, 0, 1, 0, 1, 0, 1, 0, 1, 0]) :=
  ⟨fun _ h => h,
    ⟨(claim8_energy_analysis (fun x : ℚ => x) [1, 0, 1, 0, 1, 0, 1, 0, 1, 0]
        (fun _ h => h)).2.1,
      (claim8_energy_analysis (fun x : ℚ => x) [1, 0, 1, 0, 1, 0, 1, 0, 1, 0]
        (fun _ h => h)).2.2.2.2.2.2.2⟩⟩
